import Mathlib

/-!
Shallow embedding of `src/read_util_report.py`: a parser for Vivado
utilization reports (pipe-delimited tables whose header line contains
"Total LUTs"), together with the `UtilReport` query methods.

Modelling conventions:
* Python strings are Lean `String`s; a file's content is a single `String`
  and `readlines` is modelled faithfully (each returned line keeps its
  trailing newline, a final fragment without a newline is kept only when
  nonempty).
* Python exceptions are modelled with `Except`: `RuntimeError` from the
  header search, `ValueError` from `int()` / `float()`, `IndexError` from
  the `split("|")[1]` access in `parse_table_row_depth`.
* Python `float` values are modelled as exact fractions (`PyFloat`, with
  a `toRat` value view); the report cells only ever hold short decimal
  literals, for which IEEE doubles and the combination
  `ramb36 + ramb18 * 0.5` are exact.
* `int(s)` / `float(s)` are modelled on the forms occurring in report
  cells: an optional sign followed by digits (with an optional decimal
  point for `float`). PEP-515 underscore separators, exponents, `inf` and
  `nan` are not modelled; no utilization report cell contains them.
* The process-wide global `uid_counter` is modelled by threading the
  counter value through `read_vivado_util_report` explicitly (the spec
  itself recommends this as the faithful restatement of the global).
-/

deriving instance DecidableEq for Except

namespace ReadUtilReport

/-- Python whitespace set used by `str.strip()` and by `\s` in the depth
regex, restricted to ASCII (report files are ASCII). -/
def pyIsSpace (c : Char) : Bool :=
  c == ' ' || c == '\t' || c == '\n' || c == '\r' || c == '\x0b' || c == '\x0c'

/-- Test whether the first list is an initial segment of the second. -/
def isStartOf : List Char → List Char → Bool
  | [], _ => true
  | _ :: _, [] => false
  | p :: ps, c :: cs => p == c && isStartOf ps cs

/-- Substring test on character lists (Python `pat in s`). -/
def hasSub (pat : List Char) : List Char → Bool
  | [] => isStartOf pat []
  | c :: cs => isStartOf pat (c :: cs) || hasSub pat cs

/-- Python `pat in s` for strings. -/
def strContains (s pat : String) : Bool := hasSub pat.data s.data

/-- The empty string (named so list defaults can refer to it). -/
def emptyString : String := ""

/-- Python `s.strip()` on ASCII text: drop whitespace from both ends. -/
def pyStrip (s : String) : String :=
  String.mk (((s.data.dropWhile pyIsSpace).reverse.dropWhile pyIsSpace).reverse)

/-- Python `s.split("|")` on character lists: split at every pipe. -/
def splitPipeChars : List Char → List (List Char)
  | [] => [[]]
  | c :: cs =>
    if c == '|' then [] :: splitPipeChars cs
    else
      match splitPipeChars cs with
      | [] => [[c]]
      | g :: gs => (c :: g) :: gs

/-- Python `line.split("|")`. -/
def splitPipe (s : String) : List String := (splitPipeChars s.data).map String.mk

def newlineChar : Char := '\n'

/-- Python `file.readlines()` on the file content: each line keeps its
trailing newline; a final fragment without a newline is kept only when it
is nonempty. -/
def readlinesAux : List Char → List Char → List String
  | [], acc => if acc.isEmpty then [] else [String.mk acc.reverse]
  | c :: cs, acc =>
    if c == newlineChar then String.mk (acc.reverse ++ [c]) :: readlinesAux cs []
    else readlinesAux cs (c :: acc)

def readlines (content : String) : List String := readlinesAux content.data []

/-- Python `re.sub(r"^(\s*)(.*)$", r"\1", s)` for strings whose only
newline, if any, is the final character — the shape of every segment a
`readlines` line can yield.  The anchored match keeps the leading
whitespace run; when the string ends with a newline, `$` matches just
before it and the unmatched newline survives into the result. -/
def pyRegexWsSub (s : String) : String :=
  if s.data.getLast? = some newlineChar then
    String.mk (s.data.dropLast.takeWhile pyIsSpace ++ [newlineChar])
  else
    String.mk (s.data.takeWhile pyIsSpace)

/-- Number of leading whitespace characters of a string (used to state the
spec's depth formula). -/
def leadingWsCount (s : String) : Nat := (s.data.takeWhile pyIsSpace).length

/-- Value of a digit list read in base 10 (Python semantics of a digit
run inside `int()` / `float()`). -/
def digitsVal (cs : List Char) : Nat :=
  cs.foldl (fun a c => a * 10 + (c.toNat - 48)) 0

/-- Parse a nonempty all-digit list, else fail. -/
def digitsToNat (cs : List Char) : Option Nat :=
  if cs.isEmpty then none
  else if cs.all Char.isDigit then some (digitsVal cs) else none

/-- Python `int(s)` on a stripped cell: optional sign then digits. -/
def pyInt (s : String) : Option Int :=
  match s.data with
  | [] => none
  | c :: rest =>
    if c == '-' then (digitsToNat rest).map (fun n => -(n : Int))
    else if c == '+' then (digitsToNat rest).map (fun n => (n : Int))
    else (digitsToNat (c :: rest)).map (fun n => (n : Int))

/-- Exact value of a Python `float` as a fraction with positive
denominator.  The report cells only ever hold short decimal literals, for
which the IEEE operations performed by the parser (`x + y * 0.5`) are
exact, so exact fractions are a faithful value model.  The representation
is not normalised; `toRat` gives the value. -/
structure PyFloat where
  num : Int
  den : Nat
  den_pos : 0 < den

instance : DecidableEq PyFloat := fun a b =>
  decidable_of_iff (a.num = b.num ∧ a.den = b.den) (by cases a; cases b; simp)

/-- The rational value of a `PyFloat`. -/
def PyFloat.toRat (q : PyFloat) : Rat := (q.num : Rat) / (q.den : Rat)

/-- Python float addition (exact on the report's decimal values). -/
def PyFloat.add (a b : PyFloat) : PyFloat :=
  ⟨a.num * b.den + b.num * a.den, a.den * b.den, Nat.mul_pos a.den_pos b.den_pos⟩

/-- Python float multiplication (exact on the report's decimal values). -/
def PyFloat.mul (a b : PyFloat) : PyFloat :=
  ⟨a.num * b.num, a.den * b.den, Nat.mul_pos a.den_pos b.den_pos⟩

/-- The literal `0.5` of the source (`ramb36 + ramb18 * 0.5`). -/
def halfFloat : PyFloat := ⟨1, 2, by decide⟩

/-- `float(0)`, the value used for an absent RAMB column. -/
def zeroFloat : PyFloat := ⟨0, 1, by decide⟩

/-- Digits with at most one decimal point, at least one digit overall
(Python accepts "5.", ".5", rejects "." and ""). -/
def decimalCore (cs : List Char) : Option PyFloat :=
  match cs.splitOn '.' with
  | [a] =>
    if a.isEmpty then none
    else if a.all Char.isDigit then some ⟨(digitsVal a : Int), 1, by decide⟩ else none
  | [a, b] =>
    if a.isEmpty && b.isEmpty then none
    else if (a ++ b).all Char.isDigit then
      some ⟨(digitsVal (a ++ b) : Int), 10 ^ b.length, Nat.pos_pow_of_pos _ (by decide)⟩
    else none
  | _ => none

/-- Python `float(s)` on a stripped cell: optional sign then a decimal
literal. -/
def pyFloat (s : String) : Option PyFloat :=
  match s.data with
  | [] => none
  | c :: rest =>
    if c == '-' then (decimalCore rest).map (fun q => ⟨-q.num, q.den, q.den_pos⟩)
    else if c == '+' then decimalCore rest
    else decimalCore (c :: rest)

/-! ## Data model: `UtilReportEntry` and `UtilReport`

The Python dataclass also declares `Parent` and `Children` fields, but no
code path ever assigns them (they stay `None` / `[]` for every entry the
parser builds, and the spec marks them as unused), so they are omitted
here.  The numeric fields are declared `Optional[int]` in Python but are
never assigned `None` by any code path, so they are plain integers here.
-/

structure UtilReportEntry where
  Instance : Option String
  Module : Option String
  LUTs : Int
  SRLs : Int
  FFs : Int
  BRAMs : PyFloat
  URAMs : Int
  DSPs : Int
  Depth : Option Nat
  UId : Option Nat
deriving DecidableEq

/-- The freshly constructed `UtilReportEntry()` before any field is
assigned (all Python defaults). -/
def dummyEntry : UtilReportEntry :=
  ⟨none, none, 0, 0, 0, zeroFloat, 0, 0, none, none⟩

structure UtilReport where
  all_entries : List UtilReportEntry
deriving DecidableEq

/-! ## Error model

`RuntimeError` is raised by the header search, `ValueError` by
`int()` / `float()` on a malformed cell (the payload is the offending
cell text), `IndexError` by the `line.split("|")[1]` access in
`parse_table_row_depth`. -/

inductive PyError where
  | runtimeError (msg : String)
  | valueError (cell : String)
  | indexError
deriving DecidableEq

def headerMsg : String := "Unable to locate utilization table header in report."

/-- Error raised by `UtilReport.get_by_instance_name`: a `ValueError`
whose message names the missing instance and enumerates all instance
names present in the report (modelled structurally). -/
inductive LookupError where
  | notFound (instance_name : String) (all_names : List (Option String))
deriving DecidableEq

/-! ## Query operations of `UtilReport` -/

/-- `self.all_entries[0]` (raises `IndexError` when empty). -/
def UtilReport.get_top (r : UtilReport) : Except PyError UtilReportEntry :=
  match r.all_entries with
  | [] => .error .indexError
  | e :: _ => .ok e

/-- The loop condition of `get_by_instance_name`:
`entry.Instance == instance_name and (depth is None or depth == entry.Depth)`. -/
def entryMatches (instance_name : String) (depth : Option Nat) (e : UtilReportEntry) : Bool :=
  e.Instance == some instance_name && (depth == none || depth == e.Depth)

/-- `UtilReport.get_by_instance_name`: first matching entry in file
order, else a `ValueError` listing all instance names. -/
def UtilReport.get_by_instance_name (r : UtilReport) (instance_name : String)
    (depth : Option Nat) : Except LookupError UtilReportEntry :=
  match r.all_entries.find? (entryMatches instance_name depth) with
  | some e => .ok e
  | none => .error (.notFound instance_name (r.all_entries.map (fun e => e.Instance)))

/-- `UtilReport.get_by_instance_name_or_none`: same lookup inside
`try ... except ValueError: return None`. -/
def UtilReport.get_by_instance_name_or_none (r : UtilReport) (instance_name : String)
    (depth : Option Nat) : Option UtilReportEntry :=
  match r.get_by_instance_name instance_name depth with
  | .ok e => some e
  | .error _ => none

/-! ## The parser `read_vivado_util_report` -/

/-- Column-name constants of the source. -/
def hdrNeedle : String := "Total LUTs"

def sepNeedle : String := "-+-"

def keyInstance : String := "Instance"

def keyModule : String := "Module"

def keySRLs : String := "SRLs"

def keyFFs : String := "FFs"

def keyRAMB36 : String := "RAMB36"

def keyRAMB18 : String := "RAMB18"

def keyURAM : String := "URAM"

def keyDSP : String := "DSP Blocks"

/-- Inner helper `parse_table_row`: split on `|`, strip each segment,
drop empty segments. -/
def parse_table_row (line : String) : List String :=
  ((splitPipe line).map pyStrip).filter (fun seg => seg != "")

/-- Inner helper `parse_table_row_depth`: leading-whitespace length of
`line.split("|")[1]` after the `re.sub` extraction, through the
`max((n - 1) // 2, 0)` formula (`Nat` subtraction and division implement
Python's `max(... , 0)` exactly).  `IndexError` when the line has no `|`. -/
def parse_table_row_depth (line : String) : Except PyError Nat :=
  match (splitPipe line).get? 1 with
  | none => .error .indexError
  | some cell => .ok (((pyRegexWsSub cell).length - 1) / 2)

/-- The `record_map` dict built by `{key: value for key, value in
zip(header_fields, values)}`: positional zip, later duplicate keys
overwrite earlier ones. -/
def rowMap (header_fields : List String) (line : String) : List (String × String) :=
  header_fields.zip (parse_table_row line)

/-- Python `dict.get` over the zipped pairs: the last binding of a key
wins (dict-comprehension overwrite order). -/
def dictGet (m : List (String × String)) (k : String) : Option String :=
  match m with
  | [] => none
  | (k0, v0) :: rest =>
    match dictGet rest k with
    | some v => some v
    | none => if k0 == k then some v0 else none

/-- `int(record_map[key])` when the key is present, the untouched `0`
default when absent: a present-but-invalid cell raises `ValueError`. -/
def getIntField (m : List (String × String)) (k : String) : Except PyError Int :=
  match dictGet m k with
  | none => .ok 0
  | some s =>
    match pyInt s with
    | some n => .ok n
    | none => .error (.valueError s)

/-- `float(record_map.get(key, 0))`: `float(0)` when absent, `float(cell)`
when present (raising `ValueError` on a malformed cell). -/
def getFloatField (m : List (String × String)) (k : String) : Except PyError PyFloat :=
  match dictGet m k with
  | none => .ok zeroFloat
  | some s =>
    match pyFloat s with
    | some q => .ok q
    | none => .error (.valueError s)

/-- Parse one data row at the given `uid_counter` value, in the source's
evaluation order: LUTs, SRLs, FFs, RAMB36, RAMB18, URAM, DSP Blocks,
then the depth computation, then the `UId` assignment. -/
def parse_data_row (hf : List String) (line : String) (uid : Nat) :
    Except PyError UtilReportEntry :=
  match getIntField (rowMap hf line) hdrNeedle with
  | .error err => .error err
  | .ok luts =>
  match getIntField (rowMap hf line) keySRLs with
  | .error err => .error err
  | .ok srls =>
  match getIntField (rowMap hf line) keyFFs with
  | .error err => .error err
  | .ok ffs =>
  match getFloatField (rowMap hf line) keyRAMB36 with
  | .error err => .error err
  | .ok ramb36 =>
  match getFloatField (rowMap hf line) keyRAMB18 with
  | .error err => .error err
  | .ok ramb18 =>
  match getIntField (rowMap hf line) keyURAM with
  | .error err => .error err
  | .ok urams =>
  match getIntField (rowMap hf line) keyDSP with
  | .error err => .error err
  | .ok dsps =>
  match parse_table_row_depth line with
  | .error err => .error err
  | .ok depth =>
    .ok ⟨dictGet (rowMap hf line) keyInstance, dictGet (rowMap hf line) keyModule,
      luts, srls, ffs, ramb36.add (ramb18.mul halfFloat), urams, dsps,
      some depth, some uid⟩

/-- The row loop of `read_vivado_util_report` over the lines from index
`header + 2` on: stop at the first `-+-` line, skip blank lines, parse
every other line, incrementing the uid counter per appended entry.
Returns the entries together with the final counter value. -/
def parseRows (hf : List String) : List String → Nat →
    Except PyError (List UtilReportEntry × Nat)
  | [], uid => .ok ([], uid)
  | line :: rest, uid =>
    if strContains line sepNeedle then .ok ([], uid)
    else if pyStrip line == "" then parseRows hf rest uid
    else
      match parse_data_row hf line uid with
      | .error err => .error err
      | .ok entry =>
        match parseRows hf rest (uid + 1) with
        | .error err => .error err
        | .ok (es, uid2) => .ok (entry :: es, uid2)

/-- The header scan plus row loop of `read_vivado_util_report` over the
line list: find the first line containing "Total LUTs", take its parsed
cells as header fields, and consume rows starting two lines later. -/
def read_lines : List String → Nat → Except PyError (UtilReport × Nat)
  | [], _ => .error (.runtimeError headerMsg)
  | line :: rest, uid =>
    if strContains line hdrNeedle then
      match parseRows (parse_table_row line) (rest.drop 1) uid with
      | .error err => .error err
      | .ok (es, uid2) => .ok (⟨es⟩, uid2)
    else read_lines rest uid

/-- `read_vivado_util_report`: the whole parse of a file's content.  The
process-wide `uid_counter` global is threaded explicitly: the argument is
its value on entry, the returned `Nat` its value on (successful) return. -/
def read_vivado_util_report (content : String) (uid : Nat) :
    Except PyError (UtilReport × Nat) :=
  read_lines (readlines content) uid

/-! ## Derived notions used to state the claims -/

/-- Index of the first line containing "Total LUTs", if any. -/
def firstHeaderIdx : List String → Option Nat
  | [] => none
  | line :: rest =>
    if strContains line hdrNeedle then some 0
    else (firstHeaderIdx rest).map (fun i => i + 1)

/-- The data region of the lines following header + separator: everything
before the first `-+-` line, with blank (whitespace-only) lines skipped. -/
def dataRegion (ls : List String) : List String :=
  (ls.takeWhile (fun l => !strContains l sepNeedle)).filter (fun l => pyStrip l != "")

/-- The header fields read from line `i` of the file. -/
def hdrFieldsAt (lines : List String) (i : Nat) : List String :=
  parse_table_row ((lines.drop i).headD emptyString)

/-- Straight-line reference form of the row loop: parse exactly the given
region lines, one entry per line, uid increasing by one per row. -/
def parseRegion (hf : List String) : List String → Nat →
    Except PyError (List UtilReportEntry)
  | [], _ => .ok []
  | line :: rest, uid =>
    match parse_data_row hf line uid with
    | .error err => .error err
    | .ok entry =>
      match parseRegion hf rest (uid + 1) with
      | .error err => .error err
      | .ok es => .ok (entry :: es)

/-! ## Concrete inputs used by the claim theorems

Expected parse results were obtained by hand-tracing the source on each
input; the theorems below check them against the embedding. -/

/-- The depth formula exactly as claim C5 words it: `max((w - 1) div 2, 0)`
where `w` is the number of leading whitespace characters of the raw
(untrimmed) instance-name cell, the text between the first and second `|`
of the line (running to the end of the line when there is no second `|`,
as in Python's `split`).  `Nat` subtraction and division implement the
`max(..., 0)` floor. -/
def claimedDepth (line : String) : Option Nat :=
  ((splitPipe line).get? 1).map (fun cell => (leadingWsCount cell - 1) / 2)

def c1file : String :=
  "junk\n| Instance | Module | Total LUTs | FFs | RAMB36 | RAMB18 | DSP Blocks |\n|---|\n| top | t | 5 | 6 | 2 | 3 | 4 |\n\n|   sub | s | 7 | 8 | 0 | 0 | 1 |\n+---+-+-+\nafter\n"

def c1top : UtilReportEntry :=
  ⟨some r"top", some r"t", 5, 0, 6, ⟨7, 2, by decide⟩, 0, 4, some 0, some 0⟩

def c1sub : UtilReportEntry :=
  ⟨some r"sub", some r"s", 7, 0, 8, ⟨0, 2, by decide⟩, 0, 1, some 1, some 1⟩

def c1report : UtilReport := ⟨[c1top, c1sub]⟩

def c2file : String := "hello\nworld\n"

def c3hf : List String := [keyInstance, hdrNeedle, keyDSP]

def c3goodline : String := "| top | 5 | 8 |\n"

def c3badline : String := "| top | 5 | N/A |\n"

def c3badcell : String := "N/A"

def c3entry : UtilReportEntry :=
  ⟨some r"top", none, 5, 0, 0, ⟨0, 2, by decide⟩, 0, 8, some 0, some 0⟩

def c4hf : List String := [keyInstance, hdrNeedle, keyRAMB36, keyRAMB18]

def c4line : String := "| top | 1 | 2 | 3 |\n"

def c4r36 : PyFloat := ⟨2, 1, by decide⟩

def c4r18 : PyFloat := ⟨3, 1, by decide⟩

def c4entry : UtilReportEntry :=
  ⟨some r"top", none, 1, 0, 0, ⟨7, 2, by decide⟩, 0, 0, some 0, some 0⟩

def c5file : String := "| Instance | Total LUTs |\n-\n|  x\n"

def c5dataline : String := "|  x\n"

def c5entry : UtilReportEntry :=
  ⟨some r"x", none, 0, 0, 0, ⟨0, 2, by decide⟩, 0, 0, some 1, some 0⟩

def c5whf : List String := [keyInstance, hdrNeedle]

def c5wline : String := "|     five | 9 |\n"

def c5wcell : String := "     five "

def c5wentry : UtilReportEntry :=
  ⟨some r"five", none, 9, 0, 0, ⟨0, 2, by decide⟩, 0, 0, some 2, some 0⟩

def c6top : UtilReportEntry :=
  ⟨some r"top", none, 1, 0, 0, zeroFloat, 0, 0, some 0, some 0⟩

def c6sub : UtilReportEntry :=
  ⟨some r"sub", none, 2, 0, 0, zeroFloat, 0, 0, some 1, some 1⟩

def c6rep : UtilReport := ⟨[c6top, c6sub]⟩

def c6subName : String := "sub"

def c6missing : String := "nonexistent"

def c7file : String := "| Instance | Total LUTs |\n-\n| top | 3 |\n"

def c7entry : UtilReportEntry :=
  ⟨some r"top", none, 3, 0, 0, ⟨0, 2, by decide⟩, 0, 0, some 0, some 0⟩

def c7rep : UtilReport := ⟨[c7entry]⟩

def c8fileA : String := "| Instance | Total LUTs |\n-\n| a | 1 |\n| b | 2 |\n"

def c8fileB : String := "| Instance | Total LUTs |\n-\n| c | 3 |\n"

def c8ea : UtilReportEntry :=
  ⟨some r"a", none, 1, 0, 0, ⟨0, 2, by decide⟩, 0, 0, some 0, some 0⟩

def c8eb : UtilReportEntry :=
  ⟨some r"b", none, 2, 0, 0, ⟨0, 2, by decide⟩, 0, 0, some 0, some 1⟩

def c8ec : UtilReportEntry :=
  ⟨some r"c", none, 3, 0, 0, ⟨0, 2, by decide⟩, 0, 0, some 0, some 2⟩

def c8repA : UtilReport := ⟨[c8ea, c8eb]⟩

def c8repB : UtilReport := ⟨[c8ec]⟩

def c9file : String := "| Instance | Total LUTs |\n-\nnopipe\n"

def c9okfile : String := "| Instance | Total LUTs |\n-\n| top | 4 |\n"

def c9okentry : UtilReportEntry :=
  ⟨some r"top", none, 4, 0, 0, ⟨0, 2, by decide⟩, 0, 0, some 0, some 0⟩

def c9okrep : UtilReport := ⟨[c9okentry]⟩

def c10hf : List String := [keyInstance, hdrNeedle, keyFFs]

def c10line : String := "| top | 7 |\n"

def c10entry : UtilReportEntry :=
  ⟨some r"top", none, 7, 0, 0, ⟨0, 2, by decide⟩, 0, 0, some 0, some 0⟩

/-! ## Shared lemmas -/

theorem PyFloat.toRat_add (a b : PyFloat) : (a.add b).toRat = a.toRat + b.toRat := by
  have ha : ((a.den : Rat)) ≠ 0 := by
    exact_mod_cast Nat.pos_iff_ne_zero.mp a.den_pos
  have hb : ((b.den : Rat)) ≠ 0 := by
    exact_mod_cast Nat.pos_iff_ne_zero.mp b.den_pos
  simp only [PyFloat.add, PyFloat.toRat]
  push_cast
  field_simp

theorem PyFloat.toRat_mul (a b : PyFloat) : (a.mul b).toRat = a.toRat * b.toRat := by
  simp only [PyFloat.mul, PyFloat.toRat]
  push_cast
  ring

theorem halfFloat_toRat : halfFloat.toRat = 1 / 2 := by
  simp [halfFloat, PyFloat.toRat]

theorem zeroFloat_toRat : zeroFloat.toRat = 0 := by
  simp [zeroFloat, PyFloat.toRat]

/-- Inversion principle for a successful row parse: every field extractor
succeeded and the entry is exactly the record the source builds. -/
theorem parse_data_row_ok_elim {hf : List String} {line : String} {uid : Nat}
    {e : UtilReportEntry} (h : parse_data_row hf line uid = .ok e) :
    ∃ luts srls ffs r36 r18 urams dsps depth,
      getIntField (rowMap hf line) hdrNeedle = .ok luts ∧
      getIntField (rowMap hf line) keySRLs = .ok srls ∧
      getIntField (rowMap hf line) keyFFs = .ok ffs ∧
      getFloatField (rowMap hf line) keyRAMB36 = .ok r36 ∧
      getFloatField (rowMap hf line) keyRAMB18 = .ok r18 ∧
      getIntField (rowMap hf line) keyURAM = .ok urams ∧
      getIntField (rowMap hf line) keyDSP = .ok dsps ∧
      parse_table_row_depth line = .ok depth ∧
      e = ⟨dictGet (rowMap hf line) keyInstance, dictGet (rowMap hf line) keyModule,
        luts, srls, ffs, r36.add (r18.mul halfFloat), urams, dsps,
        some depth, some uid⟩ := by
  unfold parse_data_row at h
  cases h1 : getIntField (rowMap hf line) hdrNeedle with
  | error err => simp only [h1] at h; exact Except.noConfusion h
  | ok luts =>
  simp only [h1] at h
  cases h2 : getIntField (rowMap hf line) keySRLs with
  | error err => simp only [h2] at h; exact Except.noConfusion h
  | ok srls =>
  simp only [h2] at h
  cases h3 : getIntField (rowMap hf line) keyFFs with
  | error err => simp only [h3] at h; exact Except.noConfusion h
  | ok ffs =>
  simp only [h3] at h
  cases h4 : getFloatField (rowMap hf line) keyRAMB36 with
  | error err => simp only [h4] at h; exact Except.noConfusion h
  | ok r36 =>
  simp only [h4] at h
  cases h5 : getFloatField (rowMap hf line) keyRAMB18 with
  | error err => simp only [h5] at h; exact Except.noConfusion h
  | ok r18 =>
  simp only [h5] at h
  cases h6 : getIntField (rowMap hf line) keyURAM with
  | error err => simp only [h6] at h; exact Except.noConfusion h
  | ok urams =>
  simp only [h6] at h
  cases h7 : getIntField (rowMap hf line) keyDSP with
  | error err => simp only [h7] at h; exact Except.noConfusion h
  | ok dsps =>
  simp only [h7] at h
  cases h8 : parse_table_row_depth line with
  | error err => simp only [h8] at h; exact Except.noConfusion h
  | ok depth =>
  simp only [h8] at h
  injection h with h
  exact ⟨luts, srls, ffs, r36, r18, urams, dsps, depth,
    rfl, rfl, rfl, rfl, rfl, rfl, rfl, rfl, h.symm⟩

/-- Introduction direction matching `parse_data_row_ok_elim`. -/
theorem parse_data_row_ok_intro {hf : List String} {line : String} {uid : Nat}
    {luts srls ffs urams dsps : Int} {r36 r18 : PyFloat} {depth : Nat}
    (h1 : getIntField (rowMap hf line) hdrNeedle = .ok luts)
    (h2 : getIntField (rowMap hf line) keySRLs = .ok srls)
    (h3 : getIntField (rowMap hf line) keyFFs = .ok ffs)
    (h4 : getFloatField (rowMap hf line) keyRAMB36 = .ok r36)
    (h5 : getFloatField (rowMap hf line) keyRAMB18 = .ok r18)
    (h6 : getIntField (rowMap hf line) keyURAM = .ok urams)
    (h7 : getIntField (rowMap hf line) keyDSP = .ok dsps)
    (h8 : parse_table_row_depth line = .ok depth) :
    parse_data_row hf line uid =
      .ok ⟨dictGet (rowMap hf line) keyInstance, dictGet (rowMap hf line) keyModule,
        luts, srls, ffs, r36.add (r18.mul halfFloat), urams, dsps,
        some depth, some uid⟩ := by
  unfold parse_data_row
  simp only [h1, h2, h3, h4, h5, h6, h7, h8]

/-- A successful straight-line region parse yields one entry per region
line, in order, with consecutive uids. -/
theorem parseRegion_ok_spec {hf : List String} :
    ∀ (region : List String) (uid : Nat) (es : List UtilReportEntry),
      parseRegion hf region uid = .ok es →
      es.length = region.length ∧
      ∀ k, k < region.length →
        parse_data_row hf (region.getD k emptyString) (uid + k) = .ok (es.getD k dummyEntry) := by
  intro region
  induction region with
  | nil =>
    intro uid es h
    simp only [parseRegion] at h
    injection h with h
    subst h
    exact ⟨rfl, fun k hk => absurd hk (Nat.not_lt_zero k)⟩
  | cons line rest ih =>
    intro uid es h
    unfold parseRegion at h
    cases h1 : parse_data_row hf line uid with
    | error err => simp only [h1] at h; exact Except.noConfusion h
    | ok entry =>
    simp only [h1] at h
    cases h2 : parseRegion hf rest (uid + 1) with
    | error err => simp only [h2] at h; exact Except.noConfusion h
    | ok es2 =>
    simp only [h2] at h
    injection h with h
    subst h
    obtain ⟨hlen, hk⟩ := ih (uid + 1) es2 h2
    refine ⟨by simp [hlen], ?_⟩
    intro k hklt
    cases k with
    | zero =>
      rw [List.getD_cons_zero, List.getD_cons_zero, Nat.add_zero]
      exact h1
    | succ j =>
      have hj : j < rest.length := Nat.lt_of_succ_lt_succ (by simpa using hklt)
      have h3 := hk j hj
      have harith : uid + (j + 1) = uid + 1 + j := by omega
      rw [List.getD_cons_succ, List.getD_cons_succ, harith]
      exact h3

/-- The row loop equals the straight-line parse of the data region (the
lines before the first `-+-` line with blank lines dropped), and on
success the final uid counter advanced by exactly the region length. -/
theorem parseRows_eq_region {hf : List String} :
    ∀ (ls : List String) (uid : Nat),
      parseRows hf ls uid =
        (parseRegion hf (dataRegion ls) uid).map
          (fun es => (es, uid + (dataRegion ls).length)) := by
  intro ls
  induction ls with
  | nil => intro uid; simp [parseRows, dataRegion, parseRegion, Except.map]
  | cons line rest ih =>
    intro uid
    by_cases hsep : strContains line sepNeedle = true
    · have hregion : dataRegion (line :: rest) = [] := by
        simp [dataRegion, List.takeWhile_cons, hsep]
      rw [hregion]
      simp [parseRows, hsep, parseRegion, Except.map]
    · by_cases hblank : (pyStrip line == "") = true
      · have hregion : dataRegion (line :: rest) = dataRegion rest := by
          simp [dataRegion, List.takeWhile_cons, hsep, List.filter_cons, hblank, bne]
        rw [hregion]
        have hstep : parseRows hf (line :: rest) uid = parseRows hf rest uid := by
          simp [parseRows, hsep, hblank]
        rw [hstep]
        exact ih uid
      · have hregion : dataRegion (line :: rest) = line :: dataRegion rest := by
          simp [dataRegion, List.takeWhile_cons, hsep, List.filter_cons, hblank, bne]
        rw [hregion]
        have hstep : parseRows hf (line :: rest) uid =
            match parse_data_row hf line uid with
            | .error err => .error err
            | .ok entry =>
              match parseRows hf rest (uid + 1) with
              | .error err => .error err
              | .ok (es, uid2) => .ok (entry :: es, uid2) := by
          simp [parseRows, hsep, hblank]
        rw [hstep]
        cases h1 : parse_data_row hf line uid with
        | error err => simp [parseRegion, h1, Except.map]
        | ok entry =>
          simp only [parseRegion, h1]
          rw [ih (uid + 1)]
          cases h2 : parseRegion hf (dataRegion rest) (uid + 1) with
          | error err => simp [Except.map]
          | ok es =>
            simp only [Except.map, List.length_cons]
            have harith : uid + 1 + (dataRegion rest).length =
                uid + ((dataRegion rest).length + 1) := by omega
            rw [harith]

/-- When line `i` is the first header line, `read_lines` is the row loop
over the lines from `i + 2` on, with the header fields read from line
`i`. -/
theorem read_lines_spec :
    ∀ (lines : List String) (uid i : Nat),
      firstHeaderIdx lines = some i →
      read_lines lines uid =
        (parseRows (hdrFieldsAt lines i) (lines.drop (i + 2)) uid).map
          (fun p => (⟨p.1⟩, p.2)) := by
  intro lines
  induction lines with
  | nil => intro uid i h; simp [firstHeaderIdx] at h
  | cons line rest ih =>
    intro uid i h
    by_cases hc : strContains line hdrNeedle = true
    · simp only [firstHeaderIdx, hc, if_true] at h
      injection h with h
      subst h
      have hhdr : hdrFieldsAt (line :: rest) 0 = parse_table_row line := rfl
      have hdrop : (line :: rest).drop (0 + 2) = rest.drop 1 := rfl
      rw [hhdr, hdrop]
      have hstep : read_lines (line :: rest) uid =
          match parseRows (parse_table_row line) (rest.drop 1) uid with
          | .error err => .error err
          | .ok (es, uid2) => .ok (⟨es⟩, uid2) := by
        simp [read_lines, hc]
      rw [hstep]
      cases hp : parseRows (parse_table_row line) (rest.drop 1) uid with
      | error err => simp [Except.map]
      | ok p => simp [Except.map]
    · have hstep : read_lines (line :: rest) uid = read_lines rest uid := by
        simp [read_lines, hc]
      cases hrest : firstHeaderIdx rest with
      | none =>
        rw [firstHeaderIdx] at h
        simp [hc, hrest] at h
      | some j =>
        rw [firstHeaderIdx] at h
        simp [hc, hrest] at h
        subst h
        rw [hstep, ih uid j hrest]
        rfl

theorem getIntField_none {m : List (String × String)} {k : String}
    (h : dictGet m k = none) : getIntField m k = .ok 0 := by
  unfold getIntField
  rw [h]

theorem getFloatField_none {m : List (String × String)} {k : String}
    (h : dictGet m k = none) : getFloatField m k = .ok zeroFloat := by
  unfold getFloatField
  rw [h]

theorem getIntField_invalid {m : List (String × String)} {k s : String}
    (h1 : dictGet m k = some s) (h2 : pyInt s = none) :
    getIntField m k = .error (.valueError s) := by
  unfold getIntField
  simp only [h1, h2]

theorem getFloatField_invalid {m : List (String × String)} {k s : String}
    (h1 : dictGet m k = some s) (h2 : pyFloat s = none) :
    getFloatField m k = .error (.valueError s) := by
  unfold getFloatField
  simp only [h1, h2]

/-- A successfully parsed row keeps the zero default of every numeric
field whose column is absent from the zipped record map. -/
theorem parse_data_row_absent {hf : List String} {line : String} {uid : Nat}
    {e : UtilReportEntry} (hok : parse_data_row hf line uid = .ok e) :
    (dictGet (rowMap hf line) hdrNeedle = none → e.LUTs = 0) ∧
    (dictGet (rowMap hf line) keySRLs = none → e.SRLs = 0) ∧
    (dictGet (rowMap hf line) keyFFs = none → e.FFs = 0) ∧
    (dictGet (rowMap hf line) keyURAM = none → e.URAMs = 0) ∧
    (dictGet (rowMap hf line) keyDSP = none → e.DSPs = 0) ∧
    (dictGet (rowMap hf line) keyRAMB36 = none →
      dictGet (rowMap hf line) keyRAMB18 = none → e.BRAMs.toRat = 0) := by
  obtain ⟨luts, srls, ffs, r36, r18, urams, dsps, depth,
    h1, h2, h3, h4, h5, h6, h7, h8, he⟩ := parse_data_row_ok_elim hok
  subst he
  refine ⟨?_, ?_, ?_, ?_, ?_, ?_⟩
  · intro hnone
    have h0 := (getIntField_none hnone).symm.trans h1
    injection h0 with h0
    exact h0.symm
  · intro hnone
    have h0 := (getIntField_none hnone).symm.trans h2
    injection h0 with h0
    exact h0.symm
  · intro hnone
    have h0 := (getIntField_none hnone).symm.trans h3
    injection h0 with h0
    exact h0.symm
  · intro hnone
    have h0 := (getIntField_none hnone).symm.trans h6
    injection h0 with h0
    exact h0.symm
  · intro hnone
    have h0 := (getIntField_none hnone).symm.trans h7
    injection h0 with h0
    exact h0.symm
  · intro hn36 hn18
    have e36 := (getFloatField_none hn36).symm.trans h4
    have e18 := (getFloatField_none hn18).symm.trans h5
    injection e36 with e36
    injection e18 with e18
    show (r36.add (r18.mul halfFloat)).toRat = 0
    rw [← e36, ← e18]
    rw [PyFloat.toRat_add, PyFloat.toRat_mul, zeroFloat_toRat]
    ring

/-- When no line contains the header needle, the parse raises the
`RuntimeError` of the source. -/
theorem read_lines_no_header :
    ∀ (lines : List String) (uid : Nat),
      (∀ l ∈ lines, strContains l hdrNeedle = false) →
      read_lines lines uid = .error (.runtimeError headerMsg) := by
  intro lines
  induction lines with
  | nil => intro uid _; rfl
  | cons line rest ih =>
    intro uid h
    have hline := h line (List.mem_cons_self line rest)
    simp only [read_lines, hline, Bool.false_eq_true, if_false]
    exact ih uid (fun l hl => h l (List.mem_cons_of_mem line hl))

/-- `firstHeaderIdx` misses exactly when no line contains the needle;
in that case the parse is the header `RuntimeError`. -/
theorem read_lines_none :
    ∀ (lines : List String) (uid : Nat),
      firstHeaderIdx lines = none →
      read_lines lines uid = .error (.runtimeError headerMsg) := by
  intro lines
  induction lines with
  | nil => intro uid _; rfl
  | cons line rest ih =>
    intro uid h
    rw [firstHeaderIdx] at h
    by_cases hc : strContains line hdrNeedle = true
    · simp [hc] at h
    · simp only [hc, if_false] at h
      have hrest : firstHeaderIdx rest = none := by
        cases hr : firstHeaderIdx rest with
        | none => rfl
        | some j => rw [hr] at h; simp at h
      have hstep : read_lines (line :: rest) uid = read_lines rest uid := by
        simp [read_lines, hc]
      rw [hstep]
      exact ih uid hrest

/-- A successful parse presupposes a header line. -/
theorem read_ok_has_header {content : String} {uid : Nat}
    {p : UtilReport × Nat}
    (hok : read_vivado_util_report content uid = .ok p) :
    ∃ i, firstHeaderIdx (readlines content) = some i := by
  cases hidx : firstHeaderIdx (readlines content) with
  | some i => exact ⟨i, rfl⟩
  | none =>
    rw [read_vivado_util_report, read_lines_none _ uid hidx] at hok
    exact Except.noConfusion hok

/-- Unfolding a successful parse: the entries are exactly the
straight-line parse of the data region, and the counter advanced by the
region length. -/
theorem read_ok_region_spec {content : String} {uid i : Nat}
    {r : UtilReport} {uid2 : Nat}
    (hidx : firstHeaderIdx (readlines content) = some i)
    (hok : read_vivado_util_report content uid = .ok (r, uid2)) :
    parseRegion (hdrFieldsAt (readlines content) i)
      (dataRegion ((readlines content).drop (i + 2))) uid = .ok r.all_entries ∧
    uid2 = uid + (dataRegion ((readlines content).drop (i + 2))).length := by
  rw [read_vivado_util_report, read_lines_spec _ uid i hidx, parseRows_eq_region] at hok
  cases hreg : parseRegion (hdrFieldsAt (readlines content) i)
      (dataRegion ((readlines content).drop (i + 2))) uid with
  | error err => rw [hreg] at hok; exact Except.noConfusion hok
  | ok es =>
    rw [hreg] at hok
    simp only [Except.map] at hok
    injection hok with hok
    have h1 : (⟨es⟩ : UtilReport) = r := congrArg Prod.fst hok
    have h2 : uid + (dataRegion ((readlines content).drop (i + 2))).length = uid2 :=
      congrArg Prod.snd hok
    constructor
    · rw [← h1]
    · exact h2.symm

/-- `find?` returns the first match: the list splits around the found
element with no earlier match. -/
theorem find?_eq_some_first {α : Type} (p : α → Bool) :
    ∀ {l : List α} {a : α}, l.find? p = some a →
      ∃ pre post, l = pre ++ a :: post ∧ p a = true ∧ ∀ x ∈ pre, p x = false := by
  intro l
  induction l with
  | nil => intro a h; simp [List.find?] at h
  | cons b rest ih =>
    intro a h
    cases hb : p b with
    | true =>
      rw [List.find?_cons_of_pos _ hb] at h
      injection h with h
      subst h
      exact ⟨[], rest, rfl, hb, fun x hx => absurd hx (List.not_mem_nil x)⟩
    | false =>
      rw [List.find?_cons_of_neg _ (by simp [hb])] at h
      obtain ⟨pre, post, hl, hpa, hpre⟩ := ih h
      refine ⟨b :: pre, post, by rw [hl]; rfl, hpa, ?_⟩
      intro x hx
      rcases List.mem_cons.mp hx with rfl | hx2
      · exact hb
      · exact hpre x hx2

/-! ## Claim theorems -/

/-- C1: for every input file in which a header line containing
"Total LUTs" is found, the entries of a successfully parsed report
correspond exactly, one per line and in file order, to the lines of the
data region: the region starts two lines after the (first) header line,
blank (whitespace-only) lines inside it are skipped without terminating
the scan, and it ends at the first line containing `-+-` or at end of
file, whichever comes first. -/
theorem claim1_entries_match_data_region
    (content : String) (uid i : Nat) (r : UtilReport) (uid2 : Nat)
    (hidx : firstHeaderIdx (readlines content) = some i)
    (hok : read_vivado_util_report content uid = .ok (r, uid2)) :
    r.all_entries.length = (dataRegion ((readlines content).drop (i + 2))).length ∧
    ∀ k, k < (dataRegion ((readlines content).drop (i + 2))).length →
      parse_data_row (hdrFieldsAt (readlines content) i)
        ((dataRegion ((readlines content).drop (i + 2))).getD k emptyString) (uid + k) =
        .ok (r.all_entries.getD k dummyEntry) := by
  obtain ⟨hreg, _⟩ := read_ok_region_spec hidx hok
  exact parseRegion_ok_spec _ uid r.all_entries hreg

/-- Witness for C1 at a concrete report file with a blank line inside the
data region and a `-+-` rule after it. -/
theorem claim1_witness :
    firstHeaderIdx (readlines c1file) = some 1 ∧
    read_vivado_util_report c1file 0 = .ok (c1report, 2) ∧
    (c1report.all_entries.length = (dataRegion ((readlines c1file).drop (1 + 2))).length ∧
     ∀ k, k < (dataRegion ((readlines c1file).drop (1 + 2))).length →
       parse_data_row (hdrFieldsAt (readlines c1file) 1)
         ((dataRegion ((readlines c1file).drop (1 + 2))).getD k emptyString) (0 + k) =
         .ok (c1report.all_entries.getD k dummyEntry)) :=
  ⟨by decide, by decide,
    claim1_entries_match_data_region c1file 0 1 c1report 2 (by decide) (by decide)⟩

/-- C2: for every input file that contains no line with the substring
"Total LUTs", `read_vivado_util_report` does not return a report: it
fails with the header-not-found `RuntimeError`, raised to the caller. -/
theorem claim2_no_header_error (content : String) (uid : Nat)
    (h : ∀ l ∈ readlines content, strContains l hdrNeedle = false) :
    read_vivado_util_report content uid = .error (.runtimeError headerMsg) :=
  read_lines_no_header (readlines content) uid h

/-- Witness for C2 at a concrete header-less file. -/
theorem claim2_witness :
    (∀ l ∈ readlines c2file, strContains l hdrNeedle = false) ∧
    read_vivado_util_report c2file 7 = .error (.runtimeError headerMsg) :=
  ⟨by decide, claim2_no_header_error c2file 7 (by decide)⟩

/-- C3: for every data row, a numeric column absent from the header
leaves the corresponding field at its zero default with no error, while a
present column whose cell is not a valid number (e.g. "N/A") makes the
row parse raise, and that error propagates: the whole row scan fails. -/
theorem claim3_numeric_columns (hf : List String) (line : String) (uid : Nat) :
    (∀ e, parse_data_row hf line uid = .ok e →
      (dictGet (rowMap hf line) hdrNeedle = none → e.LUTs = 0) ∧
      (dictGet (rowMap hf line) keySRLs = none → e.SRLs = 0) ∧
      (dictGet (rowMap hf line) keyFFs = none → e.FFs = 0) ∧
      (dictGet (rowMap hf line) keyURAM = none → e.URAMs = 0) ∧
      (dictGet (rowMap hf line) keyDSP = none → e.DSPs = 0) ∧
      (dictGet (rowMap hf line) keyRAMB36 = none →
        dictGet (rowMap hf line) keyRAMB18 = none → e.BRAMs.toRat = 0)) ∧
    (∀ key, (key = hdrNeedle ∨ key = keySRLs ∨ key = keyFFs ∨
        key = keyURAM ∨ key = keyDSP) →
      ∀ s, dictGet (rowMap hf line) key = some s → pyInt s = none →
        ∀ e, parse_data_row hf line uid ≠ .ok e) ∧
    (∀ key, (key = keyRAMB36 ∨ key = keyRAMB18) →
      ∀ s, dictGet (rowMap hf line) key = some s → pyFloat s = none →
        ∀ e, parse_data_row hf line uid ≠ .ok e) ∧
    (∀ ls uid0 es uid3, line ∈ dataRegion ls →
      (∀ k e, parse_data_row hf line k ≠ .ok e) →
      parseRows hf ls uid0 ≠ .ok (es, uid3)) := by
  refine ⟨fun e hok => parse_data_row_absent hok, ?_, ?_, ?_⟩
  · intro key hkey s hs hbad e hok
    obtain ⟨luts, srls, ffs, r36, r18, urams, dsps, depth,
      h1, h2, h3, h4, h5, h6, h7, h8, he⟩ := parse_data_row_ok_elim hok
    have hinv := getIntField_invalid hs hbad
    rcases hkey with rfl | rfl | rfl | rfl | rfl
    · rw [hinv] at h1; exact Except.noConfusion h1
    · rw [hinv] at h2; exact Except.noConfusion h2
    · rw [hinv] at h3; exact Except.noConfusion h3
    · rw [hinv] at h6; exact Except.noConfusion h6
    · rw [hinv] at h7; exact Except.noConfusion h7
  · intro key hkey s hs hbad e hok
    obtain ⟨luts, srls, ffs, r36, r18, urams, dsps, depth,
      h1, h2, h3, h4, h5, h6, h7, h8, he⟩ := parse_data_row_ok_elim hok
    have hinv := getFloatField_invalid hs hbad
    rcases hkey with rfl | rfl
    · rw [hinv] at h4; exact Except.noConfusion h4
    · rw [hinv] at h5; exact Except.noConfusion h5
  · intro ls uid0 es uid3 hmem hfail hok
    rw [parseRows_eq_region] at hok
    cases hreg : parseRegion hf (dataRegion ls) uid0 with
    | error err => rw [hreg] at hok; exact Except.noConfusion hok
    | ok es0 =>
      obtain ⟨hlen, hk⟩ := parseRegion_ok_spec _ uid0 es0 hreg
      obtain ⟨n, hn, hline⟩ := List.mem_iff_getElem.mp hmem
      have := hk n hn
      rw [List.getD_eq_getElem _ _ hn, hline] at this
      exact hfail (uid0 + n) _ this

/-- Witness for C3: a row with no URAM column parses with `URAMs = 0`,
and a row whose DSP cell is "N/A" makes the row parse fail. -/
theorem claim3_witness :
    parse_data_row c3hf c3goodline 0 = .ok c3entry ∧
    dictGet (rowMap c3hf c3goodline) keyURAM = none ∧
    c3entry.URAMs = 0 ∧
    dictGet (rowMap c3hf c3badline) keyDSP = some c3badcell ∧
    pyInt c3badcell = none ∧
    (∀ e, parse_data_row c3hf c3badline 0 ≠ .ok e) :=
  ⟨by decide, by decide,
    (((claim3_numeric_columns c3hf c3goodline 0).1 c3entry (by decide)).2.2.2.1 (by decide)),
    by decide, by decide,
    ((claim3_numeric_columns c3hf c3badline 0).2.1 keyDSP
      (Or.inr (Or.inr (Or.inr (Or.inr rfl)))) c3badcell (by decide) (by decide))⟩

/-- C4: for every parsed data row, the entry's BRAM count equals
`ramb36 + 0.5 * ramb18`, where `ramb36`/`ramb18` are the parsed RAMB36
and RAMB18 cells, each defaulting to 0 when its column is absent. -/
theorem claim4_bram_fusion (hf : List String) (line : String) (uid : Nat)
    (e : UtilReportEntry) (r36 r18 : PyFloat)
    (h36 : getFloatField (rowMap hf line) keyRAMB36 = .ok r36)
    (h18 : getFloatField (rowMap hf line) keyRAMB18 = .ok r18)
    (hok : parse_data_row hf line uid = .ok e) :
    e.BRAMs.toRat = r36.toRat + (1 / 2) * r18.toRat ∧
    (dictGet (rowMap hf line) keyRAMB36 = none → r36.toRat = 0) ∧
    (dictGet (rowMap hf line) keyRAMB18 = none → r18.toRat = 0) := by
  obtain ⟨luts, srls, ffs, r36x, r18x, urams, dsps, depth,
    h1, h2, h3, h4, h5, h6, h7, h8, he⟩ := parse_data_row_ok_elim hok
  have e36 : r36 = r36x := by
    have := h36.symm.trans h4
    injection this
  have e18 : r18 = r18x := by
    have := h18.symm.trans h5
    injection this
  subst he
  subst e36
  subst e18
  refine ⟨?_, ?_, ?_⟩
  · show (r36.add (r18.mul halfFloat)).toRat = r36.toRat + (1 / 2) * r18.toRat
    rw [PyFloat.toRat_add, PyFloat.toRat_mul, halfFloat_toRat]
    ring
  · intro hnone
    have h0 := (getFloatField_none hnone).symm.trans h36
    injection h0 with h0
    rw [← h0, zeroFloat_toRat]
  · intro hnone
    have h0 := (getFloatField_none hnone).symm.trans h18
    injection h0 with h0
    rw [← h0, zeroFloat_toRat]

/-- Witness for C4: the row `RAMB36 = 2, RAMB18 = 3` yields
`brams = 2 + 1.5 = 3.5`. -/
theorem claim4_witness :
    getFloatField (rowMap c4hf c4line) keyRAMB36 = .ok c4r36 ∧
    getFloatField (rowMap c4hf c4line) keyRAMB18 = .ok c4r18 ∧
    parse_data_row c4hf c4line 0 = .ok c4entry ∧
    c4entry.BRAMs.toRat = c4r36.toRat + (1 / 2) * c4r18.toRat ∧
    c4entry.BRAMs.toRat = 7 / 2 :=
  ⟨by decide, by decide, by decide,
    (claim4_bram_fusion c4hf c4line 0 c4entry c4r36 c4r18
      (by decide) (by decide) (by decide)).1,
    by norm_num [c4entry, PyFloat.toRat]⟩

/-- C5 counterexample: in the file below the single data line has exactly
one `|`, so its raw instance cell "  x" runs to the end of the line and
(as read by `readlines`) ends with the trailing newline.  The code's
regex extraction keeps that newline, computing depth
`max((3 - 1) div 2, 0) = 1`, while the claim's formula on the cell's two
leading whitespace characters gives `max((2 - 1) div 2, 0) = 0`. -/
theorem claim5_counterexample :
    read_vivado_util_report c5file 0 = .ok (⟨[c5entry]⟩, 1) ∧
    (readlines c5file).getD 2 emptyString = c5dataline ∧
    c5entry.Depth = some 1 ∧
    leadingWsCount ((splitPipe c5dataline).getD 1 emptyString) = 2 ∧
    claimedDepth c5dataline = some 0 ∧
    c5entry.Depth ≠ claimedDepth c5dataline := by decide

/-- C5 (amended): for every parsed data row whose raw instance cell (the
text between the first and second `|` of the line, running to the end of
the line when there is no second `|`, as in Python `split`) contains no
newline character — which holds for every file line with at least two
`|` characters — the entry's depth equals `max((w - 1) div 2, 0)` where
`w` is the number of leading whitespace characters of that cell; depth is
a non-negative integer, and an instance indented 5 spaces yields depth 2.
When the line has exactly one `|`, the cell ends with the line's trailing
newline, the regex extraction keeps that newline, and the computed width
is `w + 1` instead. -/
theorem claim5_depth_formula (hf : List String) (line cell : String) (uid : Nat)
    (e : UtilReportEntry)
    (hok : parse_data_row hf line uid = .ok e)
    (hcell : (splitPipe line).get? 1 = some cell)
    (hnl : newlineChar ∉ cell.data) :
    e.Depth = some ((leadingWsCount cell - 1) / 2) := by
  obtain ⟨luts, srls, ffs, r36, r18, urams, dsps, depth,
    h1, h2, h3, h4, h5, h6, h7, h8, he⟩ := parse_data_row_ok_elim hok
  unfold parse_table_row_depth at h8
  simp only [hcell] at h8
  injection h8 with h8
  have hlast : ¬ cell.data.getLast? = some newlineChar := by
    intro heq
    exact hnl (List.mem_of_getLast?_eq_some heq)
  have hsub : pyRegexWsSub cell = String.mk (cell.data.takeWhile pyIsSpace) := by
    unfold pyRegexWsSub
    rw [if_neg hlast]
  subst he
  show some depth = some ((leadingWsCount cell - 1) / 2)
  rw [← h8, hsub]
  rfl

/-- Witness for C5 (amended) at a row indented 5 spaces: depth 2. -/
theorem claim5_witness :
    parse_data_row c5whf c5wline 0 = .ok c5wentry ∧
    (splitPipe c5wline).get? 1 = some c5wcell ∧
    newlineChar ∉ c5wcell.data ∧
    leadingWsCount c5wcell = 5 ∧
    c5wentry.Depth = some ((leadingWsCount c5wcell - 1) / 2) ∧
    (leadingWsCount c5wcell - 1) / 2 = 2 :=
  ⟨by decide, by decide, by decide, by decide,
    claim5_depth_formula c5whf c5wline c5wcell 0 c5wentry
      (by decide) (by decide) (by decide),
    by decide⟩

/-- C6: `get_by_instance_name` returns the first entry in file order
whose instance name equals the given name exactly (and whose depth also
matches when a depth filter is given); when no entry matches it raises an
error enumerating all instance names of the report; and
`get_by_instance_name_or_none` performs the same lookup but returns
`none` instead of raising, returning the same entry whenever the raising
variant would. -/
theorem claim6_lookup (r : UtilReport) (instance_name : String) (depth : Option Nat) :
    (∀ e, entryMatches instance_name depth e = true ↔
      (e.Instance = some instance_name ∧ (depth = none ∨ depth = e.Depth))) ∧
    (∀ e, r.get_by_instance_name instance_name depth = .ok e →
      ∃ pre post, r.all_entries = pre ++ e :: post ∧
        entryMatches instance_name depth e = true ∧
        ∀ x ∈ pre, entryMatches instance_name depth x = false) ∧
    ((∀ e ∈ r.all_entries, entryMatches instance_name depth e = false) →
      r.get_by_instance_name instance_name depth =
        .error (.notFound instance_name (r.all_entries.map (fun e => e.Instance)))) ∧
    (∀ e, r.get_by_instance_name instance_name depth = .ok e →
      r.get_by_instance_name_or_none instance_name depth = some e) ∧
    (∀ err, r.get_by_instance_name instance_name depth = .error err →
      r.get_by_instance_name_or_none instance_name depth = none) := by
  refine ⟨?_, ?_, ?_, ?_, ?_⟩
  · intro e
    simp [entryMatches]
  · intro e h
    unfold UtilReport.get_by_instance_name at h
    cases hfind : r.all_entries.find? (entryMatches instance_name depth) with
    | none => simp only [hfind] at h; exact Except.noConfusion h
    | some a =>
      simp only [hfind] at h
      injection h with h
      subst h
      exact find?_eq_some_first _ hfind
  · intro hall
    unfold UtilReport.get_by_instance_name
    have hnone : r.all_entries.find? (entryMatches instance_name depth) = none :=
      List.find?_eq_none.mpr (fun x hx => by simp [hall x hx])
    rw [hnone]
  · intro e h
    unfold UtilReport.get_by_instance_name_or_none
    rw [h]
  · intro err h
    unfold UtilReport.get_by_instance_name_or_none
    rw [h]

/-- Witness for C6 on a two-entry report: a hit (with and without a
depth filter), a miss enumerating both names, and the `or_none` pair. -/
theorem claim6_witness :
    c6rep.get_by_instance_name c6subName none = .ok c6sub ∧
    c6rep.get_by_instance_name c6subName (some 1) = .ok c6sub ∧
    (∃ pre post, c6rep.all_entries = pre ++ c6sub :: post ∧
      entryMatches c6subName none c6sub = true ∧
      ∀ x ∈ pre, entryMatches c6subName none x = false) ∧
    c6rep.get_by_instance_name c6missing none =
      .error (.notFound c6missing (c6rep.all_entries.map (fun e => e.Instance))) ∧
    c6rep.get_by_instance_name_or_none c6subName none = some c6sub ∧
    c6rep.get_by_instance_name_or_none c6missing none = none :=
  ⟨by decide, by decide,
   (claim6_lookup c6rep c6subName none).2.1 c6sub (by decide),
   (claim6_lookup c6rep c6missing none).2.2.1 (by decide),
   (claim6_lookup c6rep c6subName none).2.2.2.1 c6sub (by decide),
   (claim6_lookup c6rep c6missing none).2.2.2.2
     (.notFound c6missing (c6rep.all_entries.map (fun e => e.Instance))) (by decide)⟩

/-- C7: `get_top` returns the first entry of a non-empty report — the
entry parsed from the first data-region line after the header and
separator — and raises (an `IndexError`) on a report with zero
entries. -/
theorem claim7_get_top (r : UtilReport) :
    (∀ e es, r.all_entries = e :: es → r.get_top = .ok e) ∧
    (r.all_entries = [] → r.get_top = .error .indexError) ∧
    (∀ content uid i uid2, firstHeaderIdx (readlines content) = some i →
      read_vivado_util_report content uid = .ok (r, uid2) →
      ∀ e es, r.all_entries = e :: es →
        parse_data_row (hdrFieldsAt (readlines content) i)
          ((dataRegion ((readlines content).drop (i + 2))).getD 0 emptyString) uid =
          .ok e) := by
  refine ⟨?_, ?_, ?_⟩
  · intro e es h
    unfold UtilReport.get_top
    rw [h]
  · intro h
    unfold UtilReport.get_top
    rw [h]
  · intro content uid i uid2 hidx hok e es hents
    obtain ⟨hreg, _⟩ := read_ok_region_spec hidx hok
    obtain ⟨hlen, hk⟩ := parseRegion_ok_spec _ uid _ hreg
    have hpos : 0 < (dataRegion ((readlines content).drop (i + 2))).length := by
      rw [← hlen, hents]
      simp
    have h0 := hk 0 hpos
    rw [Nat.add_zero, hents, List.getD_cons_zero] at h0
    exact h0

/-- Witness for C7: a one-row report whose `get_top` is that row, and the
`IndexError` on the empty report. -/
theorem claim7_witness :
    c7rep.all_entries = c7entry :: [] ∧
    c7rep.get_top = .ok c7entry ∧
    (UtilReport.mk []).get_top = .error .indexError ∧
    read_vivado_util_report c7file 0 = .ok (c7rep, 1) ∧
    parse_data_row (hdrFieldsAt (readlines c7file) 0)
      ((dataRegion ((readlines c7file).drop (0 + 2))).getD 0 emptyString) 0 =
      .ok c7entry :=
  ⟨rfl, (claim7_get_top c7rep).1 c7entry [] rfl,
   (claim7_get_top ⟨[]⟩).2.1 rfl,
   by decide,
   (claim7_get_top c7rep).2.2 c7file 0 0 1 (by decide) (by decide) c7entry [] rfl⟩

/-- A successful parse returns the start counter plus the entry count,
and gives the `k`-th entry the uid `start + k`. -/
theorem read_ok_uid_fields {content : String} {uid : Nat} {r : UtilReport}
    {uid2 : Nat} (hok : read_vivado_util_report content uid = .ok (r, uid2)) :
    uid2 = uid + r.all_entries.length ∧
    ∀ k, k < r.all_entries.length →
      (r.all_entries.getD k dummyEntry).UId = some (uid + k) := by
  obtain ⟨i, hidx⟩ := read_ok_has_header hok
  obtain ⟨hreg, huid⟩ := read_ok_region_spec hidx hok
  obtain ⟨hlen, hk⟩ := parseRegion_ok_spec _ uid _ hreg
  constructor
  · rw [huid, hlen]
  · intro k hklt
    have hk2 := hk k (by rw [← hlen]; exact hklt)
    obtain ⟨luts, srls, ffs, r36, r18, urams, dsps, depth,
      h1, h2, h3, h4, h5, h6, h7, h8, he⟩ := parse_data_row_ok_elim hk2
    rw [he]

/-- C8: sequence ids come from a process-wide increasing counter: within
one parsed report the `k`-th entry carries id `start + k` (so ids are
strictly increasing in file order), the counter returned is the start
value plus the entry count, and every entry of a subsequent parse (begun
at the returned counter) has a strictly greater id than every entry of
the earlier parse. -/
theorem claim8_sequence_ids (content : String) (uid : Nat) (r : UtilReport)
    (uid2 : Nat) (hok : read_vivado_util_report content uid = .ok (r, uid2)) :
    (∀ k, k < r.all_entries.length →
      (r.all_entries.getD k dummyEntry).UId = some (uid + k)) ∧
    (∀ j k a b, j < k → k < r.all_entries.length →
      (r.all_entries.getD j dummyEntry).UId = some a →
      (r.all_entries.getD k dummyEntry).UId = some b → a < b) ∧
    uid2 = uid + r.all_entries.length ∧
    (∀ content2 r2 uid3, read_vivado_util_report content2 uid2 = .ok (r2, uid3) →
      ∀ e1 ∈ r.all_entries, ∀ e2 ∈ r2.all_entries,
        ∀ a1 a2, e1.UId = some a1 → e2.UId = some a2 → a1 < a2) := by
  obtain ⟨huid, hids⟩ := read_ok_uid_fields hok
  refine ⟨hids, ?_, huid, ?_⟩
  · intro j k a b hjk hklt hja hkb
    have h1 := (hids j (Nat.lt_trans hjk hklt)).symm.trans hja
    have h2 := (hids k hklt).symm.trans hkb
    injection h1 with h1
    injection h2 with h2
    omega
  · intro content2 r2 uid3 hok2 e1 h1mem e2 h2mem a1 a2 ha1 ha2
    obtain ⟨huid2, hids2⟩ := read_ok_uid_fields hok2
    obtain ⟨j, hj, hje⟩ := List.mem_iff_getElem.mp h1mem
    obtain ⟨k, hk2, hke⟩ := List.mem_iff_getElem.mp h2mem
    have u1 := hids j hj
    rw [List.getD_eq_getElem _ _ hj, hje, ha1] at u1
    have u2 := hids2 k hk2
    rw [List.getD_eq_getElem _ _ hk2, hke, ha2] at u2
    injection u1 with u1
    injection u2 with u2
    omega

/-- Witness for C8: two successive parses in one "process". -/
theorem claim8_witness :
    read_vivado_util_report c8fileA 0 = .ok (c8repA, 2) ∧
    read_vivado_util_report c8fileB 2 = .ok (c8repB, 3) ∧
    ((∀ k, k < c8repA.all_entries.length →
      (c8repA.all_entries.getD k dummyEntry).UId = some (0 + k)) ∧
     (∀ j k a b, j < k → k < c8repA.all_entries.length →
      (c8repA.all_entries.getD j dummyEntry).UId = some a →
      (c8repA.all_entries.getD k dummyEntry).UId = some b → a < b) ∧
     2 = 0 + c8repA.all_entries.length ∧
     (∀ content2 r2 uid3, read_vivado_util_report content2 2 = .ok (r2, uid3) →
      ∀ e1 ∈ c8repA.all_entries, ∀ e2 ∈ r2.all_entries,
        ∀ a1 a2, e1.UId = some a1 → e2.UId = some a2 → a1 < a2)) :=
  ⟨by decide, by decide, claim8_sequence_ids c8fileA 0 c8repA 2 (by decide)⟩

/-- A pipe split with at least two segments comes from a list containing
a pipe. -/
theorem pipe_mem_of_split_two :
    ∀ (cs : List Char) (g1 g2 : List Char) (gs : List (List Char)),
      splitPipeChars cs = g1 :: g2 :: gs → ('|' : Char) ∈ cs := by
  intro cs
  induction cs with
  | nil => intro g1 g2 gs h; simp [splitPipeChars] at h
  | cons c rest ih =>
    intro g1 g2 gs h
    by_cases hc : c = '|'
    · subst hc
      exact List.mem_cons_self _ _
    · have hc2 : (c == '|') = false := by simp [hc]
      rw [splitPipeChars, hc2] at h
      simp only [Bool.false_eq_true, if_false] at h
      cases hsp : splitPipeChars rest with
      | nil => rw [hsp] at h; simp at h
      | cons g gs0 =>
        rw [hsp] at h
        injection h with hg hrest
        cases gs0 with
        | nil => exact absurd hrest (by simp)
        | cons g2x gsx =>
          injection hrest with hg2 hgs
          exact List.mem_cons_of_mem c (ih g g2x gsx hsp)

/-- C9 (implicit): a successful parse requires every data-region line to
contain at least one `|`; a region line without one makes the depth
computation's `split("|")[1]` access fail with an `IndexError` (not a
descriptive parse error), shown concretely on `c9file`. -/
theorem claim9_pipe_required :
    (∀ content uid i r uid2,
      firstHeaderIdx (readlines content) = some i →
      read_vivado_util_report content uid = .ok (r, uid2) →
      ∀ l ∈ dataRegion ((readlines content).drop (i + 2)), ('|' : Char) ∈ l.data) ∧
    read_vivado_util_report c9file 0 = .error .indexError := by
  constructor
  · intro content uid i r uid2 hidx hok l hmem
    obtain ⟨hreg, _⟩ := read_ok_region_spec hidx hok
    obtain ⟨hlen, hk⟩ := parseRegion_ok_spec _ uid _ hreg
    obtain ⟨n, hn, hl⟩ := List.mem_iff_getElem.mp hmem
    have h0 := hk n hn
    rw [List.getD_eq_getElem _ _ hn, hl] at h0
    obtain ⟨luts, srls, ffs, r36, r18, urams, dsps, depth,
      h1, h2, h3, h4, h5, h6, h7, h8, he⟩ := parse_data_row_ok_elim h0
    unfold parse_table_row_depth at h8
    cases hs : (splitPipe l).get? 1 with
    | none => rw [hs] at h8; exact Except.noConfusion h8
    | some cell =>
      have hlt : 1 < (splitPipe l).length := (List.get?_eq_some.mp hs).choose
      have hlen2 : 1 < (splitPipeChars l.data).length := by
        simpa [splitPipe] using hlt
      cases hsp : splitPipeChars l.data with
      | nil => rw [hsp] at hlen2; simp at hlen2
      | cons g1 t =>
        cases t with
        | nil => rw [hsp] at hlen2; simp at hlen2
        | cons g2 gs => exact pipe_mem_of_split_two l.data g1 g2 gs hsp
  · decide

/-- Witness for C9: a report whose region lines all contain `|` parses,
and the universal part applies to it. -/
theorem claim9_witness :
    firstHeaderIdx (readlines c9okfile) = some 0 ∧
    read_vivado_util_report c9okfile 0 = .ok (c9okrep, 1) ∧
    (∀ l ∈ dataRegion ((readlines c9okfile).drop (0 + 2)), ('|' : Char) ∈ l.data) ∧
    read_vivado_util_report c9file 0 = .error .indexError :=
  ⟨by decide, by decide,
   claim9_pipe_required.1 c9okfile 0 0 c9okrep 1 (by decide) (by decide),
   claim9_pipe_required.2⟩

theorem zip_take_r {α β : Type} :
    ∀ (l1 : List α) (l2 : List β), l1.zip l2 = l1.zip (l2.take l1.length) := by
  intro l1
  induction l1 with
  | nil => intro l2; rfl
  | cons a l1 ih =>
    intro l2
    cases l2 with
    | nil => rfl
    | cons b l2 =>
      show (a, b) :: l1.zip l2 = (a, b) :: l1.zip (l2.take l1.length)
      rw [← ih l2]

theorem zip_take_l {α β : Type} :
    ∀ (l1 : List α) (l2 : List β), l1.zip l2 = (l1.take l2.length).zip l2 := by
  intro l1
  induction l1 with
  | nil => intro l2; cases l2 <;> rfl
  | cons a l1 ih =>
    intro l2
    cases l2 with
    | nil => rfl
    | cons b l2 =>
      show (a, b) :: l1.zip l2 = (a, b) :: (l1.take l2.length).zip l2
      rw [← ih l2]

theorem mem_zip_fst_take {α β : Type} :
    ∀ (l1 : List α) (l2 : List β) (p : α × β),
      p ∈ l1.zip l2 → p.1 ∈ l1.take l2.length := by
  intro l1
  induction l1 with
  | nil => intro l2 p h; simp at h
  | cons a l1 ih =>
    intro l2 p h
    cases l2 with
    | nil => simp at h
    | cons b l2 =>
      rcases List.mem_cons.mp h with rfl | h2
      · show (a, b).1 ∈ a :: l1.take l2.length
        exact List.mem_cons_self _ _
      · show p.1 ∈ a :: l1.take l2.length
        exact List.mem_cons_of_mem a (ih l2 p h2)

theorem dictGet_eq_none_of_not_mem_fst :
    ∀ (m : List (String × String)) (k : String),
      (∀ p ∈ m, p.1 ≠ k) → dictGet m k = none := by
  intro m
  induction m with
  | nil => intro k _; rfl
  | cons p rest ih =>
    intro k h
    obtain ⟨k0, v0⟩ := p
    unfold dictGet
    rw [ih k (fun q hq => h q (List.mem_cons_of_mem _ hq))]
    have hk0 : (k0 == k) = false := by
      have := h (k0, v0) (List.mem_cons_self _ _)
      simpa using this
    rw [hk0]
    simp

/-- C10 (implicit): header names and row cells are aligned positionally
by zipping, so a row with fewer non-empty cells than the header binds
only the leading header columns, leaving the remaining (duplicate-free)
columns unbound — their fields keep their zero defaults without error —
and cells beyond the number of header columns are silently ignored. -/
theorem claim10_zip_alignment (hf : List String) (line : String) (uid : Nat) :
    rowMap hf line = hf.zip ((parse_table_row line).take hf.length) ∧
    rowMap hf line = (hf.take (parse_table_row line).length).zip (parse_table_row line) ∧
    (hf.Nodup → ∀ key ∈ hf.drop (parse_table_row line).length,
      dictGet (rowMap hf line) key = none) ∧
    (hf.Nodup → ∀ e, parse_data_row hf line uid = .ok e →
      (hdrNeedle ∈ hf.drop (parse_table_row line).length → e.LUTs = 0) ∧
      (keySRLs ∈ hf.drop (parse_table_row line).length → e.SRLs = 0) ∧
      (keyFFs ∈ hf.drop (parse_table_row line).length → e.FFs = 0) ∧
      (keyURAM ∈ hf.drop (parse_table_row line).length → e.URAMs = 0) ∧
      (keyDSP ∈ hf.drop (parse_table_row line).length → e.DSPs = 0) ∧
      (keyRAMB36 ∈ hf.drop (parse_table_row line).length →
        keyRAMB18 ∈ hf.drop (parse_table_row line).length → e.BRAMs.toRat = 0)) := by
  have h3 : hf.Nodup → ∀ key ∈ hf.drop (parse_table_row line).length,
      dictGet (rowMap hf line) key = none := by
    intro hnodup key hkey
    apply dictGet_eq_none_of_not_mem_fst
    intro p hp hpk
    exact List.disjoint_take_drop hnodup (Nat.le_refl _)
      (hpk ▸ mem_zip_fst_take hf (parse_table_row line) p hp) hkey
  refine ⟨zip_take_r hf (parse_table_row line), zip_take_l hf (parse_table_row line),
    h3, ?_⟩
  intro hnodup e hok
  have habs := parse_data_row_absent hok
  exact ⟨fun hm => habs.1 (h3 hnodup _ hm),
    fun hm => habs.2.1 (h3 hnodup _ hm),
    fun hm => habs.2.2.1 (h3 hnodup _ hm),
    fun hm => habs.2.2.2.1 (h3 hnodup _ hm),
    fun hm => habs.2.2.2.2.1 (h3 hnodup _ hm),
    fun hm36 hm18 => habs.2.2.2.2.2 (h3 hnodup _ hm36) (h3 hnodup _ hm18)⟩

/-- Witness for C10: a three-column header with a two-cell row leaves the
trailing FFs column unbound and its field zero, with no error. -/
theorem claim10_witness :
    c10hf.Nodup ∧
    (parse_table_row c10line).length = 2 ∧
    c10hf.length = 3 ∧
    parse_data_row c10hf c10line 0 = .ok c10entry ∧
    keyFFs ∈ c10hf.drop (parse_table_row c10line).length ∧
    dictGet (rowMap c10hf c10line) keyFFs = none ∧
    c10entry.FFs = 0 :=
  ⟨by decide, by decide, by decide, by decide, by decide,
   (claim10_zip_alignment c10hf c10line 0).2.2.1 (by decide) keyFFs (by decide),
   (((claim10_zip_alignment c10hf c10line 0).2.2.2 (by decide)) c10entry
     (by decide)).2.2.1 (by decide)⟩

end ReadUtilReport
